import Mathlib

/-!
Shallow embedding of the data-layer logic of `www/archive/models.py`
(Facebook-group archival application).  Timestamps are modelled as integer
seconds; `timezone.now()` becomes an explicit `now : Int` argument.  Each
database table touched by the helper routines is modelled as a list of rows,
and every routine is translated directly from the Python source.
-/

namespace Ward

/-- Method key used by the month-content retention gate. -/
def month_content : String := "month_content"

/-- Number of seconds in a day, an hour, a minute. -/
def secPerDay : Int := 86400

def secPerHour : Int := 3600

def secPerMin : Int := 60

/-- Embedding of `get_different_time(time)` (models.py lines 31-52).
`now - time` plays the role of `timezone.now() - time`; Python's
`divmod` on a positive modulus is floor division / nonnegative remainder,
which is `Int./` and `Int.%` (Euclidean division by a positive divisor). -/
def get_different_time (now time : Int) : String :=
  if 0 < (now - time) / 86400 then
    toString ((now - time) / 86400) ++ "days"
  else if 0 < (now - time) / 3600 then
    toString ((now - time) / 3600) ++ "hours"
  else if 0 < (now - time) % 3600 / 60 then
    toString ((now - time) % 3600 / 60) ++ "mins"
  else
    toString ((now - time) % 3600 % 60) ++ "secs"

/-- Embedding of the `Post` model fields used by `DeletedPost.create` and
`MonthPost.create`.  Identifiers are strings (CharField primary keys). -/
structure Post where
  id : String
  user : String
  created_time : Int
  updated_time : Int
  message : String
  picture : String
  comment_count : Int
  like_count : Int
  share_count : Int
  group : String

/-- Embedding of the `Comment` model: a comment optionally points at a parent
comment (self-referential foreign key), so it is a nested inductive. -/
inductive Comment where
  | mk (id : String) (user : String) (created_time : Int) (message : String)
      (like_count : Int) (comment_count : Int) (post : Post)
      (parent : Option Comment) (group : String) : Comment

def Comment.id : Comment → String
  | .mk i _ _ _ _ _ _ _ _ => i

def Comment.user : Comment → String
  | .mk _ u _ _ _ _ _ _ _ => u

def Comment.created_time : Comment → Int
  | .mk _ _ t _ _ _ _ _ _ => t

def Comment.message : Comment → String
  | .mk _ _ _ m _ _ _ _ _ => m

def Comment.like_count : Comment → Int
  | .mk _ _ _ _ l _ _ _ _ => l

def Comment.comment_count : Comment → Int
  | .mk _ _ _ _ _ c _ _ _ => c

def Comment.post : Comment → Post
  | .mk _ _ _ _ _ _ p _ _ => p

def Comment.parent : Comment → Option Comment
  | .mk _ _ _ _ _ _ _ pa _ => pa

def Comment.group : Comment → String
  | .mk _ _ _ _ _ _ _ _ g => g

/-- Embedding of the `DeletedPost` model (tombstone snapshot of a post). -/
structure DeletedPost where
  id : String
  user : String
  created_time : Int
  updated_time : Int
  message : String
  picture : String
  comment_count : Int
  like_count : Int
  share_count : Int
  group : String

/-- Embedding of `DeletedPost.create(post)` (models.py lines 331-335). -/
def DeletedPost.create (post : Post) : DeletedPost :=
  { id := post.id, user := post.user, created_time := post.created_time,
    updated_time := post.updated_time, message := post.message,
    picture := post.picture, comment_count := post.comment_count,
    like_count := post.like_count, share_count := post.share_count,
    group := post.group }

/-- Embedding of the `DeletedComment` model: `post` and `parent` are stored
as plain identifier strings (CharField), not live references. -/
structure DeletedComment where
  id : String
  user : String
  created_time : Int
  message : String
  like_count : Int
  comment_count : Int
  post : String
  parent : Option String
  group : String

/-- Embedding of `DeletedComment.create(comment)` (models.py lines 367-375). -/
def DeletedComment.create (comment : Comment) : DeletedComment :=
  { id := comment.id, user := comment.user,
    created_time := comment.created_time, message := comment.message,
    like_count := comment.like_count, comment_count := comment.comment_count,
    post := comment.post.id,
    parent :=
      match comment.parent with
      | some pa => some pa.id
      | none => none,
    group := comment.group }

/-- Replace the first element satisfying `p` with its image under `f`, leaving
everything else unchanged.  This models mutating `queryset[0]` and saving it. -/
def updateFirst (p : α → Bool) (f : α → α) : List α → List α
  | [] => []
  | x :: xs => if p x then f x :: xs else x :: updateFirst p f xs

/-- Embedding of a `UserActivity` row (models.py lines 399-406). -/
structure UserActivity where
  user : String
  group : String
  post_count : Int
  comment_count : Int
deriving DecidableEq

/-- Row filter `filter(user=user, group=group)` on `UserActivity`. -/
def activityKey (user group : String) (r : UserActivity) : Bool :=
  r.user == user && r.group == group

/-- Embedding of `UserActivity.add_post_count` (models.py lines 408-423). -/
def UserActivity.add_post_count (user group : String)
    (rows : List UserActivity) : List UserActivity :=
  if (rows.filter (activityKey user group)).isEmpty then
    rows ++ [{ user := user, group := group, post_count := 1, comment_count := 0 }]
  else
    updateFirst (activityKey user group)
      (fun r => { r with post_count := r.post_count + 1 }) rows

/-- Embedding of `UserActivity.add_comment_count` (models.py lines 425-440). -/
def UserActivity.add_comment_count (user group : String)
    (rows : List UserActivity) : List UserActivity :=
  if (rows.filter (activityKey user group)).isEmpty then
    rows ++ [{ user := user, group := group, post_count := 0, comment_count := 1 }]
  else
    updateFirst (activityKey user group)
      (fun r => { r with comment_count := r.comment_count + 1 }) rows

/-- Embedding of `UserActivity.sub_post_count` (models.py lines 442-460). -/
def UserActivity.sub_post_count (user group : String)
    (rows : List UserActivity) : List UserActivity :=
  if (rows.filter (activityKey user group)).isEmpty then
    rows ++ [{ user := user, group := group, post_count := 0, comment_count := 0 }]
  else
    updateFirst (activityKey user group)
      (fun r =>
        if 0 < r.post_count then { r with post_count := r.post_count - 1 }
        else { r with post_count := 0 }) rows

/-- Embedding of `UserActivity.sub_comment_count` (models.py lines 462-480). -/
def UserActivity.sub_comment_count (user group : String)
    (rows : List UserActivity) : List UserActivity :=
  if (rows.filter (activityKey user group)).isEmpty then
    rows ++ [{ user := user, group := group, post_count := 0, comment_count := 0 }]
  else
    updateFirst (activityKey user group)
      (fun r =>
        if 0 < r.comment_count then { r with comment_count := r.comment_count - 1 }
        else { r with comment_count := 0 }) rows

/-- The post counter currently recorded for `(user, group)`: the count of the
first matching row, or `0` when no row exists. -/
def postCountOf (user group : String) (rows : List UserActivity) : Int :=
  match rows.filter (activityKey user group) with
  | [] => 0
  | r :: _ => r.post_count

/-- One call to one of the four `UserActivity` counter class methods. -/
inductive ActivityOp where
  | addPost (user group : String)
  | addComment (user group : String)
  | subPost (user group : String)
  | subComment (user group : String)

/-- Apply one counter call to the `UserActivity` table. -/
def applyActivityOp (rows : List UserActivity) : ActivityOp → List UserActivity
  | .addPost u g => UserActivity.add_post_count u g rows
  | .addComment u g => UserActivity.add_comment_count u g rows
  | .subPost u g => UserActivity.sub_post_count u g rows
  | .subComment u g => UserActivity.sub_comment_count u g rows

/-- Apply a finite sequence of counter calls, first element first. -/
def applyActivityOps (rows : List UserActivity) (ops : List ActivityOp) :
    List UserActivity :=
  ops.foldl applyActivityOp rows

/-- All counters in the table are nonnegative. -/
def NonnegActivity (rows : List UserActivity) : Prop :=
  ∀ r ∈ rows, 0 ≤ r.post_count ∧ 0 ≤ r.comment_count

instance (rows : List UserActivity) : Decidable (NonnegActivity rows) := by
  unfold NonnegActivity; infer_instance

/-- Embedding of a `GroupStatisticsUpdateList` row (models.py lines 502-508). -/
structure GateRow where
  group : String
  method : String
  updated_time : Int
deriving DecidableEq

/-- Row filter `filter(group=group, method=method)`. -/
def gateKey (group method : String) (r : GateRow) : Bool :=
  r.group == group && r.method == method

/-- Embedding of `GroupStatisticsUpdateList.is_update` (models.py lines
527-538): true once at least one whole day has elapsed; `timedelta.days` is
floor division of the elapsed seconds by 86400. -/
def GateRow.is_update (now : Int) (self : GateRow) : Bool :=
  decide (1 ≤ (now - self.updated_time) / 86400)

/-- Embedding of a `MonthPost` row: the shadow record stores the post's
created time, group id and post id (`OneToOneField(Post)`). -/
structure MonthPostRow where
  created_time : Int
  group : String
  post : String
deriving DecidableEq

/-- Embedding of a `MonthComment` row. -/
structure MonthCommentRow where
  created_time : Int
  group : String
  comment : String
deriving DecidableEq

/-- The slice of the database state that `check` and the month-shadow
creation routines read and write. -/
structure DB where
  gates : List GateRow
  monthPosts : List MonthPostRow
  monthComments : List MonthCommentRow
deriving DecidableEq

/-- Embedding of `GroupStatisticsUpdateList.update` (models.py lines
510-525): touch the first row keyed `(group, method)` if one exists, else
insert a fresh row whose `updated_time` is `now` (auto_now_add). -/
def GroupStatisticsUpdateList.update (now : Int) (group method : String)
    (db : DB) : DB :=
  match db.gates.filter (gateKey group method) with
  | [] => { db with gates := db.gates ++ [{ group := group, method := method, updated_time := now }] }
  | _ :: _ =>
    { db with gates := (updateFirst (gateKey group method)
        (fun r => { r with updated_time := now }) db.gates) }

/-- Embedding of `check(group)` (models.py lines 673-695): consult the
`month_content` gate; absent gate is created and treated as not due; a due
gate triggers deletion of the group's MonthPost/MonthComment rows older than
30 days (`timezone.timedelta(30)`), then a second gate touch. -/
def check (now : Int) (group : String) (db : DB) : DB :=
  match db.gates.filter (gateKey group month_content) with
  | [] => GroupStatisticsUpdateList.update now group month_content db
  | r :: _ =>
    if GateRow.is_update now r then
      GroupStatisticsUpdateList.update now group month_content
        { db with
          monthPosts := db.monthPosts.filter
            (fun p => !(p.group == group && decide (p.created_time < now - 30 * 86400))),
          monthComments := db.monthComments.filter
            (fun c => !(c.group == group && decide (c.created_time < now - 30 * 86400))) }
    else db

/-- Embedding of `MonthPost.create(post)` (models.py lines 599-616): run
`check` on the post's group, then insert a shadow row unless one already
exists for this post. -/
def MonthPost.create (now : Int) (post : Post) (db : DB) : DB :=
  if ((check now post.group db).monthPosts.filter
      (fun mp => mp.post == post.id)).isEmpty then
    { gates := (check now post.group db).gates,
      monthPosts := (check now post.group db).monthPosts ++
        [{ created_time := post.created_time, group := post.group, post := post.id }],
      monthComments := (check now post.group db).monthComments }
  else
    check now post.group db

/-- Embedding of `MonthComment.create(comment)` (models.py lines 640-657). -/
def MonthComment.create (now : Int) (comment : Comment) (db : DB) : DB :=
  if ((check now comment.group db).monthComments.filter
      (fun mc => mc.comment == comment.id)).isEmpty then
    { gates := (check now comment.group db).gates,
      monthPosts := (check now comment.group db).monthPosts,
      monthComments := (check now comment.group db).monthComments ++
        [{ created_time := comment.created_time, group := comment.group,
           comment := comment.id }] }
  else
    check now comment.group db

/-! Concrete sample data used by witness and counterexample theorems. -/

/-- Sample user id. -/
def uA : String := "u1"

/-- Sample group id. -/
def gA : String := "g1"

/-- Sample statistics method name. -/
def mA : String := "stats"

/-- Sample activity table with a (nonsensical) negative counter. -/
def rowsNeg : List UserActivity :=
  [{ user := uA, group := gA, post_count := -1, comment_count := 0 }]

/-- Sample activity table with nonnegative counters. -/
def rowsW : List UserActivity :=
  [{ user := uA, group := gA, post_count := 2, comment_count := 0 }]

/-- Sample sequence of counter calls. -/
def opsW : List ActivityOp :=
  [ActivityOp.subPost uA gA, ActivityOp.subPost uA gA, ActivityOp.subComment uA gA,
   ActivityOp.addPost uA gA, ActivityOp.subPost uA gA, ActivityOp.subPost uA gA]

/-- Sample database with no gate row. -/
def dbA : DB := { gates := [], monthPosts := [⟨0, gA, "p1"⟩], monthComments := [⟨0, gA, "c1"⟩] }

/-- Sample database whose gate row was touched at time 0. -/
def dbB : DB :=
  { gates := [{ group := gA, method := month_content, updated_time := 0 }],
    monthPosts := [⟨-10000000, gA, "p1"⟩], monthComments := [] }

/-- Sample database with a due gate, one over-age row per table of the gated
group, one young row, and one over-age row of another group. -/
def dbC : DB :=
  { gates := [{ group := gA, method := month_content, updated_time := 0 }],
    monthPosts := [⟨-10000000, gA, "p1"⟩, ⟨80000, gA, "p2"⟩, ⟨-10000000, "g2", "p3"⟩],
    monthComments := [⟨-10000000, gA, "c1"⟩, ⟨80000, gA, "c2"⟩] }

/-- Sample gate table for the upsert witness. -/
def dbW : DB :=
  { gates := [{ group := gA, method := mA, updated_time := 3 },
              { group := "g2", method := mA, updated_time := 5 }],
    monthPosts := [], monthComments := [] }

/-- Sample post whose created time is far in the past (over 30 days old). -/
def postW : Post :=
  { id := "p9", user := uA, created_time := -10000000, updated_time := -10000000,
    message := "hello", picture := "pic", comment_count := 3, like_count := 4,
    share_count := 5, group := gA }

/-- Sample comment, also over-age, with no parent. -/
def commentW : Comment :=
  Comment.mk "c9" uA (-10000000) "hi" 1 2 postW none gA

/-! Generic lemmas about `updateFirst`, `filter` and `countP`. -/

theorem filter_updateFirst_nil {α : Type} {p : α → Bool} {f : α → α} :
    ∀ {l : List α}, l.filter p = [] → updateFirst p f l = l
  | [], _ => rfl
  | x :: xs, h => by
    by_cases hx : p x = true
    · rw [List.filter_cons_of_pos hx] at h
      exact absurd h (List.cons_ne_nil _ _)
    · rw [List.filter_cons_of_neg (by simpa using hx)] at h
      simp only [updateFirst, if_neg hx]
      rw [filter_updateFirst_nil h]

theorem filter_updateFirst_cons {α : Type} {p : α → Bool} {f : α → α}
    (hf : ∀ a, p a = true → p (f a) = true) :
    ∀ {l : List α} {a : α} {rest : List α}, l.filter p = a :: rest →
      (updateFirst p f l).filter p = f a :: rest
  | [], a, rest, h => by simp at h
  | x :: xs, a, rest, h => by
    by_cases hx : p x = true
    · rw [List.filter_cons_of_pos hx] at h
      injection h with h1 h2
      subst h1
      subst h2
      simp only [updateFirst, if_pos hx]
      rw [List.filter_cons_of_pos (hf x hx)]
    · rw [List.filter_cons_of_neg (by simpa using hx)] at h
      simp only [updateFirst, if_neg hx]
      rw [List.filter_cons_of_neg (by simpa using hx)]
      exact filter_updateFirst_cons hf h

theorem filter_not_updateFirst {α : Type} {p : α → Bool} {f : α → α}
    (hf : ∀ a, p a = true → p (f a) = true) :
    ∀ l : List α,
      (updateFirst p f l).filter (fun x => !(p x)) = l.filter (fun x => !(p x))
  | [] => rfl
  | x :: xs => by
    by_cases hx : p x = true
    · simp only [updateFirst, if_pos hx]
      rw [List.filter_cons_of_neg (by simp [hf x hx]),
        List.filter_cons_of_neg (by simp [hx])]
    · simp only [updateFirst, if_neg hx]
      rw [List.filter_cons_of_pos (by simp [Bool.not_eq_true] at hx ⊢; exact hx),
        List.filter_cons_of_pos (by simp [Bool.not_eq_true] at hx ⊢; exact hx)]
      rw [filter_not_updateFirst hf xs]

theorem mem_updateFirst {α : Type} {P : α → Prop} {p : α → Bool} {f : α → α}
    (hf : ∀ a, P a → P (f a)) :
    ∀ {l : List α}, (∀ a ∈ l, P a) → ∀ a ∈ updateFirst p f l, P a
  | [], _, a, ha => by simp [updateFirst] at ha
  | x :: xs, hl, a, ha => by
    by_cases hx : p x = true
    · simp only [updateFirst, if_pos hx, List.mem_cons] at ha
      rcases ha with rfl | ha
      · exact hf x (hl x (List.mem_cons_self x xs))
      · exact hl a (List.mem_cons_of_mem x ha)
    · simp only [updateFirst, if_neg hx, List.mem_cons] at ha
      rcases ha with rfl | ha
      · exact hl a (List.mem_cons_self a xs)
      · exact mem_updateFirst hf (fun b hb => hl b (List.mem_cons_of_mem x hb)) a ha

theorem countP_filter_le {α : Type} (p q : α → Bool) :
    ∀ l : List α, (l.filter q).countP p ≤ l.countP p
  | [] => Nat.le_refl _
  | x :: xs => by
    have ih := countP_filter_le p q xs
    by_cases hq : q x = true <;> by_cases hp : p x = true <;>
      simp [List.filter_cons, List.countP_cons, hq, hp] <;> omega

theorem filter_filter_nil {α : Type} {p q : α → Bool} {l : List α}
    (h : l.filter p = []) : (l.filter q).filter p = [] := by
  rw [List.filter_eq_nil_iff] at h ⊢
  intro a ha
  exact h a (List.mem_of_mem_filter ha)

/-! Theorems settling the claims. -/

theorem gateKey_set_time (g m : String) (now : Int) (a : GateRow)
    (h : gateKey g m a = true) :
    gateKey g m { a with updated_time := now } = true := by
  cases a
  simpa [gateKey] using h

theorem update_monthPosts_eq (now : Int) (g m : String) (db : DB) :
    (GroupStatisticsUpdateList.update now g m db).monthPosts = db.monthPosts := by
  cases hfe : db.gates.filter (gateKey g m) <;>
    simp [GroupStatisticsUpdateList.update, hfe]

theorem update_monthComments_eq (now : Int) (g m : String) (db : DB) :
    (GroupStatisticsUpdateList.update now g m db).monthComments = db.monthComments := by
  cases hfe : db.gates.filter (gateKey g m) <;>
    simp [GroupStatisticsUpdateList.update, hfe]

theorem update_gates_filter (now : Int) (g m : String) (db : DB)
    (huniq : (db.gates.filter (gateKey g m)).length ≤ 1) :
    (GroupStatisticsUpdateList.update now g m db).gates.filter (gateKey g m)
      = [{ group := g, method := m, updated_time := now }] := by
  cases hfe : db.gates.filter (gateKey g m) with
  | nil =>
    simp only [GroupStatisticsUpdateList.update, hfe]
    rw [List.filter_append, hfe]
    simp [gateKey]
  | cons r rest =>
    have hrest : rest = [] := by
      rw [hfe] at huniq
      simp only [List.length_cons] at huniq
      exact List.eq_nil_of_length_eq_zero (by omega)
    subst hrest
    have hmem : r ∈ db.gates.filter (gateKey g m) := by
      rw [hfe]
      exact List.mem_cons_self r []
    have hkey : gateKey g m r = true := (List.mem_filter.mp hmem).2
    simp only [GroupStatisticsUpdateList.update, hfe]
    rw [filter_updateFirst_cons (fun a ha => gateKey_set_time g m now a ha) hfe]
    obtain ⟨rg, rm, rt⟩ := r
    simp only [gateKey, Bool.and_eq_true, beq_iff_eq] at hkey
    simp [hkey.1, hkey.2]

/-- Claim C2: `GroupStatisticsUpdateList.update(group, method)` is an
upsert-by-key timestamp touch: afterwards exactly one row keyed
`(group, method)` exists and its timestamp is the current time, rows with
other keys are unchanged, and no other table is touched.  The hypothesis is
the schema assumption that at most one row carries a given key. -/
theorem group_statistics_update_upsert (now : Int) (g m : String) (db : DB)
    (huniq : (db.gates.filter (gateKey g m)).length ≤ 1) :
    (GroupStatisticsUpdateList.update now g m db).gates.filter (gateKey g m)
        = [{ group := g, method := m, updated_time := now }] ∧
    (GroupStatisticsUpdateList.update now g m db).gates.filter
        (fun r => !(gateKey g m r)) = db.gates.filter (fun r => !(gateKey g m r)) ∧
    (GroupStatisticsUpdateList.update now g m db).monthPosts = db.monthPosts ∧
    (GroupStatisticsUpdateList.update now g m db).monthComments = db.monthComments := by
  refine ⟨update_gates_filter now g m db huniq, ?_,
    update_monthPosts_eq now g m db, update_monthComments_eq now g m db⟩
  cases hfe : db.gates.filter (gateKey g m) with
  | nil =>
    simp only [GroupStatisticsUpdateList.update, hfe]
    rw [List.filter_append]
    simp [gateKey]
  | cons r rest =>
    simp only [GroupStatisticsUpdateList.update, hfe]
    exact filter_not_updateFirst (fun a ha => gateKey_set_time g m now a ha) db.gates

/-- Witness for C2: touching the key (gA, mA) in a concrete two-row gate
table leaves exactly one row with that key, stamped with the call time. -/
theorem group_statistics_update_upsert_witness :
    (GroupStatisticsUpdateList.update 7 gA mA dbW).gates.filter (gateKey gA mA)
      = [{ group := gA, method := mA, updated_time := 7 }] :=
  (group_statistics_update_upsert 7 gA mA dbW (by decide)).1

/-- Claim C3: immediately after `update` for a key, `is_update` on the keyed
row is false (the gate moves due to not-due on every touch), and it becomes
true once the elapsed time since the stored timestamp exceeds 24 hours. -/
theorem gate_not_due_after_update (now now2 : Int) (g m : String) (db : DB)
    (huniq : (db.gates.filter (gateKey g m)).length ≤ 1) :
    ∀ r ∈ (GroupStatisticsUpdateList.update now g m db).gates.filter (gateKey g m),
      GateRow.is_update now r = false ∧
      (86400 < now2 - r.updated_time → GateRow.is_update now2 r = true) := by
  rw [update_gates_filter now g m db huniq]
  intro r hr
  rw [List.mem_singleton] at hr
  subst hr
  constructor
  · simp only [GateRow.is_update, decide_eq_false_iff_not]
    show ¬(1 ≤ (now - now) / 86400)
    omega
  · intro h
    have h2 : (86400 : Int) < now2 - now := h
    simp only [GateRow.is_update, decide_eq_true_eq]
    show 1 ≤ (now2 - now) / 86400
    omega

/-- Witness for C3: after touching (gA, mA) at time 7, the gate is not due
at time 7 and is due at time 100000 (more than a day later). -/
theorem gate_not_due_after_update_witness :
    GateRow.is_update 7 { group := gA, method := mA, updated_time := 7 } = false ∧
    GateRow.is_update 100000 { group := gA, method := mA, updated_time := 7 } = true := by
  have h := gate_not_due_after_update 7 100000 gA mA dbW (by decide)
    { group := gA, method := mA, updated_time := 7 } (by decide)
  exact ⟨h.1, h.2 (by decide)⟩

theorem nonneg_append (rows : List UserActivity) (a : UserActivity)
    (h : NonnegActivity rows) (ha : 0 ≤ a.post_count ∧ 0 ≤ a.comment_count) :
    NonnegActivity (rows ++ [a]) := by
  intro r hr
  rcases List.mem_append.mp hr with hr | hr
  · exact h r hr
  · rw [List.mem_singleton] at hr
    subst hr
    exact ha

theorem applyActivityOp_nonneg (rows : List UserActivity) (op : ActivityOp)
    (h : NonnegActivity rows) : NonnegActivity (applyActivityOp rows op) := by
  cases op with
  | addPost u g =>
    simp only [applyActivityOp, UserActivity.add_post_count]
    split
    · exact nonneg_append _ _ h ⟨by norm_num, by norm_num⟩
    · refine mem_updateFirst (fun a ha => ⟨?_, ha.2⟩) h
      show 0 ≤ a.post_count + 1
      have := ha.1
      omega
  | addComment u g =>
    simp only [applyActivityOp, UserActivity.add_comment_count]
    split
    · exact nonneg_append _ _ h ⟨by norm_num, by norm_num⟩
    · refine mem_updateFirst (fun a ha => ⟨ha.1, ?_⟩) h
      show 0 ≤ a.comment_count + 1
      have := ha.2
      omega
  | subPost u g =>
    simp only [applyActivityOp, UserActivity.sub_post_count]
    split
    · exact nonneg_append _ _ h ⟨by norm_num, by norm_num⟩
    · refine mem_updateFirst (fun a ha => ?_) h
      by_cases hp : 0 < a.post_count
      · rw [if_pos hp]
        exact ⟨by show 0 ≤ a.post_count - 1; omega, ha.2⟩
      · rw [if_neg hp]
        exact ⟨by show (0 : Int) ≤ 0; omega, ha.2⟩
  | subComment u g =>
    simp only [applyActivityOp, UserActivity.sub_comment_count]
    split
    · exact nonneg_append _ _ h ⟨by norm_num, by norm_num⟩
    · refine mem_updateFirst (fun a ha => ?_) h
      by_cases hp : 0 < a.comment_count
      · rw [if_pos hp]
        exact ⟨ha.1, by show 0 ≤ a.comment_count - 1; omega⟩
      · rw [if_neg hp]
        exact ⟨ha.1, by show (0 : Int) ≤ 0; omega⟩

/-- Claim C4: starting from a table whose counters are all nonnegative, any
finite sequence of the four counter calls leaves every `post_count` and
`comment_count` nonnegative (a subtract on a missing row creates it at 0 and
a subtract at 0 clamps to 0). -/
theorem user_activity_counters_nonneg (ops : List ActivityOp)
    (rows : List UserActivity) (h : NonnegActivity rows) :
    NonnegActivity (applyActivityOps rows ops) := by
  induction ops generalizing rows with
  | nil => exact h
  | cons op rest ih =>
    rw [applyActivityOps, List.foldl_cons]
    exact ih (applyActivityOp rows op) (applyActivityOp_nonneg rows op h)

/-- Witness for C4: a concrete sequence with more subtracts than adds leaves
the concrete table nonnegative. -/
theorem user_activity_counters_nonneg_witness :
    NonnegActivity (applyActivityOps rowsW opsW) :=
  user_activity_counters_nonneg opsW rowsW (by decide)

theorem activityKey_set_post (u g : String) (x : Int) (a : UserActivity)
    (h : activityKey u g a = true) :
    activityKey u g { a with post_count := x } = true := by
  cases a
  simpa [activityKey] using h

theorem activityKey_sub_post (u g : String) (a : UserActivity)
    (h : activityKey u g a = true) :
    activityKey u g (if 0 < a.post_count then { a with post_count := a.post_count - 1 }
      else { a with post_count := 0 }) = true := by
  by_cases hp : 0 < a.post_count
  · rw [if_pos hp]
    exact activityKey_set_post u g _ a h
  · rw [if_neg hp]
    exact activityKey_set_post u g _ a h

theorem sub_after_add_first (r : UserActivity) (h : 0 ≤ r.post_count) :
    (if 0 < ({ r with post_count := r.post_count + 1 } : UserActivity).post_count
      then { ({ r with post_count := r.post_count + 1 } : UserActivity) with
        post_count :=
          ({ r with post_count := r.post_count + 1 } : UserActivity).post_count - 1 }
      else { ({ r with post_count := r.post_count + 1 } : UserActivity) with
        post_count := 0 }).post_count = r.post_count := by
  obtain ⟨ru, rg, rp, rc⟩ := r
  have h2 : 0 ≤ rp := h
  split
  · show rp + 1 - 1 = rp
    omega
  · next hcon =>
    exact absurd (show 0 < rp + 1 by omega) hcon

/-- Claim C5 (amended): when the recorded post counter of `(user, group)` is
nonnegative (as every state reachable from a nonnegative one is),
`add_post_count` immediately followed by `sub_post_count` for the same pair
restores the original counter, a missing row counting as 0.  For a negative
stored counter the pair of calls clamps it to 0 instead, see the
counterexample. -/
theorem add_then_sub_restores_count (u g : String) (rows : List UserActivity)
    (h : 0 ≤ postCountOf u g rows) :
    postCountOf u g
      (UserActivity.sub_post_count u g (UserActivity.add_post_count u g rows))
      = postCountOf u g rows := by
  cases hfe : rows.filter (activityKey u g) with
  | nil =>
    have h0 : postCountOf u g rows = 0 := by
      rw [postCountOf, hfe]
    rw [h0]
    rw [UserActivity.add_post_count, if_pos (by rw [hfe]; rfl)]
    have hkeya : activityKey u g
        { user := u, group := g, post_count := 1, comment_count := 0 } = true := by
      simp [activityKey]
    have hf2 : (rows ++
        [({ user := u, group := g, post_count := 1, comment_count := 0 } :
          UserActivity)]).filter (activityKey u g)
        = [({ user := u, group := g, post_count := 1, comment_count := 0 } :
          UserActivity)] := by
      rw [List.filter_append, hfe]
      simp [hkeya]
    rw [UserActivity.sub_post_count, if_neg (by rw [hf2]; exact Bool.noConfusion)]
    have hfs2 := filter_updateFirst_cons
      (fun a ha => activityKey_sub_post u g a ha) hf2
    simp only [postCountOf, hfs2]
    norm_num
  | cons r rest =>
    have hpc : postCountOf u g rows = r.post_count := by
      rw [postCountOf, hfe]
    rw [hpc] at h ⊢
    rw [UserActivity.add_post_count, if_neg (by rw [hfe]; exact Bool.noConfusion)]
    have hfa : (updateFirst (activityKey u g)
        (fun a => { a with post_count := a.post_count + 1 }) rows).filter
          (activityKey u g) = { r with post_count := r.post_count + 1 } :: rest :=
      filter_updateFirst_cons (fun a ha => activityKey_set_post u g _ a ha) hfe
    rw [UserActivity.sub_post_count, if_neg (by rw [hfa]; exact Bool.noConfusion)]
    have hfs := filter_updateFirst_cons
      (fun a ha => activityKey_sub_post u g a ha) hfa
    simp only [postCountOf, hfs]
    exact sub_after_add_first r h

/-- Witness for C5 (amended) at a concrete table with counter 2. -/
theorem add_then_sub_restores_count_witness :
    postCountOf uA gA
      (UserActivity.sub_post_count uA gA (UserActivity.add_post_count uA gA rowsW))
      = postCountOf uA gA rowsW :=
  add_then_sub_restores_count uA gA rowsW (by decide)

/-- Counterexample to C5 as stated: starting from a row whose counter is
already -1, add then sub yields 0, not the original -1. -/
theorem add_sub_not_inverse_on_negative :
    ¬(postCountOf uA gA
        (UserActivity.sub_post_count uA gA (UserActivity.add_post_count uA gA rowsNeg))
        = postCountOf uA gA rowsNeg) := by decide

/-- Claim C7: for every duration d at least zero, `get_different_time` applied
to a time d seconds in the past returns the coarsest applicable unit as an
integer-truncated count: days if d is at least one day, else hours if at
least one hour, else minutes if at least one minute, else seconds. -/
theorem get_different_time_units (now d : Int) (h : 0 ≤ d) :
    get_different_time now (now - d) =
      if 86400 ≤ d then toString (d / 86400) ++ "days"
      else if 3600 ≤ d then toString (d / 3600) ++ "hours"
      else if 60 ≤ d then toString (d / 60) ++ "mins"
      else toString d ++ "secs" := by
  have hd : now - (now - d) = d := by ring
  unfold get_different_time
  rw [hd]
  by_cases h1 : 86400 ≤ d
  · rw [if_pos (by omega : 0 < d / 86400), if_pos h1]
  · rw [if_neg (by omega : ¬0 < d / 86400), if_neg h1]
    by_cases h2 : 3600 ≤ d
    · rw [if_pos (by omega : 0 < d / 3600), if_pos h2]
    · rw [if_neg (by omega : ¬0 < d / 3600), if_neg h2]
      by_cases h3 : 60 ≤ d
      · rw [if_pos (by omega : 0 < d % 3600 / 60), if_pos h3]
        have : d % 3600 = d := by omega
        rw [this]
      · rw [if_neg (by omega : ¬0 < d % 3600 / 60), if_neg h3]
        have : d % 3600 % 60 = d := by omega
        rw [this]

/-- Witness for C7 at a concrete duration of one day, one minute and one
second (90061 seconds): the result is the truncated day count. -/
theorem get_different_time_units_witness :
    get_different_time 0 (0 - 90061) = "1days" := by
  have h := get_different_time_units 0 90061 (by decide)
  rw [h]
  decide

/-- Claim C8 (amended): an input time exactly equal to the current time
yields the string "0secs".  (For strictly later input times the code can
return other strings, see the counterexample.) -/
theorem zero_elapsed_gives_zero_secs (now : Int) :
    get_different_time now now = "0secs" := by
  unfold get_different_time
  rw [sub_self]
  decide

/-- Counterexample to C8 as stated: an input time 5 seconds later than the
current time (negative elapsed duration) yields "59mins", not "0secs". -/
theorem future_time_not_zero_secs :
    ¬(get_different_time 0 5 = "0secs") := by decide

/-- Claim C9: `DeletedPost.create` copies every snapshot field of the post
verbatim, and `DeletedComment.create` copies the comment's fields, stores the
post's id as a plain identifier, and flattens the optional parent reference
to the parent's id. -/
theorem deleted_snapshot_copies_fields (p : Post) (c : Comment) :
    (DeletedPost.create p).id = p.id ∧
    (DeletedPost.create p).user = p.user ∧
    (DeletedPost.create p).created_time = p.created_time ∧
    (DeletedPost.create p).updated_time = p.updated_time ∧
    (DeletedPost.create p).message = p.message ∧
    (DeletedPost.create p).picture = p.picture ∧
    (DeletedPost.create p).comment_count = p.comment_count ∧
    (DeletedPost.create p).like_count = p.like_count ∧
    (DeletedPost.create p).share_count = p.share_count ∧
    (DeletedPost.create p).group = p.group ∧
    (DeletedComment.create c).id = c.id ∧
    (DeletedComment.create c).user = c.user ∧
    (DeletedComment.create c).created_time = c.created_time ∧
    (DeletedComment.create c).message = c.message ∧
    (DeletedComment.create c).like_count = c.like_count ∧
    (DeletedComment.create c).comment_count = c.comment_count ∧
    (DeletedComment.create c).post = c.post.id ∧
    (DeletedComment.create c).group = c.group ∧
    (DeletedComment.create c).parent = Option.map Comment.id c.parent := by
  refine ⟨rfl, rfl, rfl, rfl, rfl, rfl, rfl, rfl, rfl, rfl,
    rfl, rfl, rfl, rfl, rfl, rfl, rfl, rfl, ?_⟩
  cases hpa : c.parent <;> simp [DeletedComment.create, hpa]

theorem check_of_not_due (now : Int) (g : String) (db : DB) (r : GateRow)
    (rest : List GateRow)
    (hfe : db.gates.filter (gateKey g month_content) = r :: rest)
    (hnd : GateRow.is_update now r = false) : check now g db = db := by
  simp [check, hfe, hnd]

theorem is_update_now_false (now : Int) (g m : String) :
    GateRow.is_update now { group := g, method := m, updated_time := now } = false := by
  simp only [GateRow.is_update, decide_eq_false_iff_not]
  show ¬(1 ≤ (now - now) / 86400)
  omega

theorem check_gate_head (now : Int) (g : String) (db : DB) :
    ∃ r rest, (check now g db).gates.filter (gateKey g month_content) = r :: rest ∧
      GateRow.is_update now r = false := by
  cases hfe : db.gates.filter (gateKey g month_content) with
  | nil =>
    refine ⟨{ group := g, method := month_content, updated_time := now }, [], ?_, ?_⟩
    · have hg : (check now g db).gates
          = db.gates ++ [{ group := g, method := month_content, updated_time := now }] := by
        simp [check, hfe, GroupStatisticsUpdateList.update]
      rw [hg, List.filter_append, hfe]
      simp [gateKey]
    · exact is_update_now_false now g month_content
  | cons r rest =>
    by_cases hdue : GateRow.is_update now r = true
    · have hg : (check now g db).gates = updateFirst (gateKey g month_content)
          (fun x => { x with updated_time := now }) db.gates := by
        simp [check, hfe, hdue, GroupStatisticsUpdateList.update]
      refine ⟨{ r with updated_time := now }, rest, ?_, ?_⟩
      · rw [hg]
        exact filter_updateFirst_cons
          (fun a ha => gateKey_set_time g month_content now a ha) hfe
      · obtain ⟨rg, rm, rt⟩ := r
        exact is_update_now_false now rg rm
    · have hnd : GateRow.is_update now r = false := by
        simpa using hdue
      rw [check_of_not_due now g db r rest hfe hnd, hfe]
      exact ⟨r, rest, rfl, hnd⟩

theorem check_monthPosts_cases (now : Int) (g : String) (db : DB) :
    (check now g db).monthPosts = db.monthPosts ∨
    (check now g db).monthPosts = db.monthPosts.filter
      (fun p => !(p.group == g && decide (p.created_time < now - 30 * 86400))) := by
  cases hfe : db.gates.filter (gateKey g month_content) with
  | nil =>
    left
    have hck : check now g db = GroupStatisticsUpdateList.update now g month_content db := by
      simp [check, hfe]
    rw [hck]
    exact update_monthPosts_eq now g month_content db
  | cons r rest =>
    by_cases hdue : GateRow.is_update now r = true
    · right
      have hck : check now g db = GroupStatisticsUpdateList.update now g month_content
          { db with
            monthPosts := db.monthPosts.filter
              (fun p => !(p.group == g && decide (p.created_time < now - 30 * 86400))),
            monthComments := db.monthComments.filter
              (fun c => !(c.group == g && decide (c.created_time < now - 30 * 86400))) } := by
        simp [check, hfe, hdue]
      rw [hck, update_monthPosts_eq]
    · left
      rw [check_of_not_due now g db r rest hfe (by simpa using hdue)]

theorem check_monthComments_cases (now : Int) (g : String) (db : DB) :
    (check now g db).monthComments = db.monthComments ∨
    (check now g db).monthComments = db.monthComments.filter
      (fun c => !(c.group == g && decide (c.created_time < now - 30 * 86400))) := by
  cases hfe : db.gates.filter (gateKey g month_content) with
  | nil =>
    left
    have hck : check now g db = GroupStatisticsUpdateList.update now g month_content db := by
      simp [check, hfe]
    rw [hck]
    exact update_monthComments_eq now g month_content db
  | cons r rest =>
    by_cases hdue : GateRow.is_update now r = true
    · right
      have hck : check now g db = GroupStatisticsUpdateList.update now g month_content
          { db with
            monthPosts := db.monthPosts.filter
              (fun p => !(p.group == g && decide (p.created_time < now - 30 * 86400))),
            monthComments := db.monthComments.filter
              (fun c => !(c.group == g && decide (c.created_time < now - 30 * 86400))) } := by
        simp [check, hfe, hdue]
      rw [hck, update_monthComments_eq]
    · left
      rw [check_of_not_due now g db r rest hfe (by simpa using hdue)]

theorem monthPost_create_gates (now : Int) (post : Post) (db : DB) :
    (MonthPost.create now post db).gates = (check now post.group db).gates := by
  rw [MonthPost.create]
  split <;> rfl

theorem monthComment_create_gates (now : Int) (comment : Comment) (db : DB) :
    (MonthComment.create now comment db).gates
      = (check now comment.group db).gates := by
  rw [MonthComment.create]
  split <;> rfl

theorem monthPost_create_of_filled (now : Int) (post : Post) (db : DB)
    (h : ¬((check now post.group db).monthPosts.filter
      (fun mp => mp.post == post.id)).isEmpty = true) :
    MonthPost.create now post db = check now post.group db := by
  rw [MonthPost.create, if_neg h]

theorem monthComment_create_of_filled (now : Int) (comment : Comment) (db : DB)
    (h : ¬((check now comment.group db).monthComments.filter
      (fun mc => mc.comment == comment.id)).isEmpty = true) :
    MonthComment.create now comment db = check now comment.group db := by
  rw [MonthComment.create, if_neg h]

/-- Claim C1: the retention sweep `check(group)`.  With no gate row for
(group, "month_content") it only creates the gate stamped `now`, deleting
nothing.  With a gate row less than one day old it does nothing at all.
With a due gate row (at least one day old) it deletes exactly the MonthPost
and MonthComment rows of that group whose created_time is older than 30 days
before now, keeps every younger row of the group and every row of other
groups, and touches the gate. -/
theorem check_retention_spec (now : Int) (g : String) (db : DB) :
    (db.gates.filter (gateKey g month_content) = [] →
      check now g db = { db with gates := db.gates ++
        [{ group := g, method := month_content, updated_time := now }] }) ∧
    (∀ r rest, db.gates.filter (gateKey g month_content) = r :: rest →
      now - r.updated_time < 86400 → check now g db = db) ∧
    (∀ r rest, db.gates.filter (gateKey g month_content) = r :: rest →
      86400 ≤ now - r.updated_time →
      check now g db =
        { gates := (updateFirst (gateKey g month_content)
            (fun x => { x with updated_time := now }) db.gates),
          monthPosts := db.monthPosts.filter
            (fun p => !(p.group == g && decide (p.created_time < now - 30 * 86400))),
          monthComments := db.monthComments.filter
            (fun c => !(c.group == g && decide (c.created_time < now - 30 * 86400))) }) := by
  refine ⟨?_, ?_, ?_⟩
  · intro hfe
    simp [check, hfe, GroupStatisticsUpdateList.update]
  · intro r rest hfe ht
    refine check_of_not_due now g db r rest hfe ?_
    simp only [GateRow.is_update, decide_eq_false_iff_not]
    show ¬(1 ≤ (now - r.updated_time) / 86400)
    omega
  · intro r rest hfe ht
    have hdue : GateRow.is_update now r = true := by
      simp only [GateRow.is_update, decide_eq_true_eq]
      show 1 ≤ (now - r.updated_time) / 86400
      omega
    simp [check, hfe, hdue, GroupStatisticsUpdateList.update]

/-- Witness for C1: the three branches on concrete databases: gate creation
at time 5, a no-op at time 86399 (gate touched at 0), and a due sweep at
time 86400 deleting the over-age rows of the gated group only. -/
theorem check_retention_spec_witness :
    check 5 gA dbA = { dbA with gates := dbA.gates ++
      [{ group := gA, method := month_content, updated_time := 5 }] } ∧
    check 86399 gA dbB = dbB ∧
    check 86400 gA dbC =
      { gates := (updateFirst (gateKey gA month_content)
          (fun x => { x with updated_time := 86400 }) dbC.gates),
        monthPosts := dbC.monthPosts.filter
          (fun p => !(p.group == gA && decide (p.created_time < 86400 - 30 * 86400))),
        monthComments := dbC.monthComments.filter
          (fun c => !(c.group == gA && decide (c.created_time < 86400 - 30 * 86400))) } := by
  refine ⟨(check_retention_spec 5 gA dbA).1 (by decide), ?_, ?_⟩
  · exact (check_retention_spec 86399 gA dbB).2.1
      { group := gA, method := month_content, updated_time := 0 } [] (by decide) (by decide)
  · exact (check_retention_spec 86400 gA dbC).2.2
      { group := gA, method := month_content, updated_time := 0 } [] (by decide) (by decide)

/-- Claim C6: `MonthPost.create` (and symmetrically `MonthComment.create`)
is idempotent: under the one-to-one schema assumption (at most one shadow
row per post/comment), one call leaves exactly one shadow row for the
record, and an immediately repeated call changes nothing at all. -/
theorem month_create_idempotent (now : Int) (post : Post) (comment : Comment)
    (db : DB)
    (hp : db.monthPosts.countP (fun mp => mp.post == post.id) ≤ 1)
    (hc : db.monthComments.countP (fun mc => mc.comment == comment.id) ≤ 1) :
    ((MonthPost.create now post db).monthPosts.countP
        (fun mp => mp.post == post.id) = 1 ∧
      MonthPost.create now post (MonthPost.create now post db)
        = MonthPost.create now post db) ∧
    ((MonthComment.create now comment db).monthComments.countP
        (fun mc => mc.comment == comment.id) = 1 ∧
      MonthComment.create now comment (MonthComment.create now comment db)
        = MonthComment.create now comment db) := by
  have hcntP : (check now post.group db).monthPosts.countP
      (fun mp => mp.post == post.id) ≤ 1 := by
    rcases check_monthPosts_cases now post.group db with hcm | hcm
    · rw [hcm]; exact hp
    · rw [hcm]; exact le_trans (countP_filter_le _ _ _) hp
  have hcntC : (check now comment.group db).monthComments.countP
      (fun mc => mc.comment == comment.id) ≤ 1 := by
    rcases check_monthComments_cases now comment.group db with hcm | hcm
    · rw [hcm]; exact hc
    · rw [hcm]; exact le_trans (countP_filter_le _ _ _) hc
  have hcount1P : (MonthPost.create now post db).monthPosts.countP
      (fun mp => mp.post == post.id) = 1 := by
    rw [MonthPost.create]
    by_cases hie : ((check now post.group db).monthPosts.filter
        (fun mp => mp.post == post.id)).isEmpty = true
    · rw [if_pos hie]
      show ((check now post.group db).monthPosts ++
        [({ created_time := post.created_time, group := post.group,
            post := post.id } : MonthPostRow)]).countP
          (fun mp => mp.post == post.id) = 1
      rw [List.countP_append, List.countP_eq_length_filter,
        List.isEmpty_iff.mp hie]
      simp
    · rw [if_neg hie]
      have hge : 1 ≤ (check now post.group db).monthPosts.countP
          (fun mp => mp.post == post.id) := by
        rw [List.countP_eq_length_filter]
        have hne : (check now post.group db).monthPosts.filter
            (fun mp => mp.post == post.id) ≠ [] := by
          simpa [List.isEmpty_iff] using hie
        have := List.length_pos.mpr hne
        omega
      omega
  have hcount1C : (MonthComment.create now comment db).monthComments.countP
      (fun mc => mc.comment == comment.id) = 1 := by
    rw [MonthComment.create]
    by_cases hie : ((check now comment.group db).monthComments.filter
        (fun mc => mc.comment == comment.id)).isEmpty = true
    · rw [if_pos hie]
      show ((check now comment.group db).monthComments ++
        [({ created_time := comment.created_time, group := comment.group,
            comment := comment.id } : MonthCommentRow)]).countP
          (fun mc => mc.comment == comment.id) = 1
      rw [List.countP_append, List.countP_eq_length_filter,
        List.isEmpty_iff.mp hie]
      simp
    · rw [if_neg hie]
      have hge : 1 ≤ (check now comment.group db).monthComments.countP
          (fun mc => mc.comment == comment.id) := by
        rw [List.countP_eq_length_filter]
        have hne : (check now comment.group db).monthComments.filter
            (fun mc => mc.comment == comment.id) ≠ [] := by
          simpa [List.isEmpty_iff] using hie
        have := List.length_pos.mpr hne
        omega
      omega
  refine ⟨⟨hcount1P, ?_⟩, ⟨hcount1C, ?_⟩⟩
  · obtain ⟨r0, rest0, hf0, hnd0⟩ := check_gate_head now post.group db
    have hf1 : (MonthPost.create now post db).gates.filter
        (gateKey post.group month_content) = r0 :: rest0 := by
      rw [monthPost_create_gates]
      exact hf0
    have hchk1 : check now post.group (MonthPost.create now post db)
        = MonthPost.create now post db :=
      check_of_not_due now post.group _ r0 rest0 hf1 hnd0
    have hne : ¬((check now post.group (MonthPost.create now post db)).monthPosts.filter
        (fun mp => mp.post == post.id)).isEmpty = true := by
      rw [hchk1]
      have h1 := hcount1P
      rw [List.countP_eq_length_filter] at h1
      simp only [List.isEmpty_iff]
      intro hnil
      rw [hnil] at h1
      simp at h1
    rw [monthPost_create_of_filled now post _ hne, hchk1]
  · obtain ⟨r0, rest0, hf0, hnd0⟩ := check_gate_head now comment.group db
    have hf1 : (MonthComment.create now comment db).gates.filter
        (gateKey comment.group month_content) = r0 :: rest0 := by
      rw [monthComment_create_gates]
      exact hf0
    have hchk1 : check now comment.group (MonthComment.create now comment db)
        = MonthComment.create now comment db :=
      check_of_not_due now comment.group _ r0 rest0 hf1 hnd0
    have hne : ¬((check now comment.group
        (MonthComment.create now comment db)).monthComments.filter
        (fun mc => mc.comment == comment.id)).isEmpty = true := by
      rw [hchk1]
      have h1 := hcount1C
      rw [List.countP_eq_length_filter] at h1
      simp only [List.isEmpty_iff]
      intro hnil
      rw [hnil] at h1
      simp at h1
    rw [monthComment_create_of_filled now comment _ hne, hchk1]

/-- Witness for C6 on a concrete database with a due gate and no shadow row
yet for the sample post and comment. -/
theorem month_create_idempotent_witness :
    (MonthPost.create 90000 postW dbC).monthPosts.countP
        (fun mp => mp.post == postW.id) = 1 ∧
    MonthPost.create 90000 postW (MonthPost.create 90000 postW dbC)
      = MonthPost.create 90000 postW dbC ∧
    (MonthComment.create 90000 commentW dbC).monthComments.countP
        (fun mc => mc.comment == commentW.id) = 1 ∧
    MonthComment.create 90000 commentW (MonthComment.create 90000 commentW dbC)
      = MonthComment.create 90000 commentW dbC := by
  have h := month_create_idempotent 90000 postW commentW dbC (by decide) (by decide)
  exact ⟨h.1.1, h.1.2, h.2.1, h.2.2⟩

/-- Claim C10: the shadow-row creators perform no age check: whenever no
shadow row exists for the post (resp. comment), a row carrying the record's
original created_time is appended, for every value of that created_time —
in particular even when it is already more than 30 days in the past. -/
theorem month_create_no_age_check (now : Int) (post : Post) (comment : Comment)
    (db : DB)
    (hp : db.monthPosts.filter (fun mp => mp.post == post.id) = [])
    (hc : db.monthComments.filter (fun mc => mc.comment == comment.id) = []) :
    (MonthPost.create now post db).monthPosts
      = (check now post.group db).monthPosts ++
        [{ created_time := post.created_time, group := post.group, post := post.id }] ∧
    (MonthComment.create now comment db).monthComments
      = (check now comment.group db).monthComments ++
        [{ created_time := comment.created_time, group := comment.group,
           comment := comment.id }] := by
  constructor
  · have hnil : (check now post.group db).monthPosts.filter
        (fun mp => mp.post == post.id) = [] := by
      rcases check_monthPosts_cases now post.group db with hcm | hcm
      · rw [hcm]; exact hp
      · rw [hcm]; exact filter_filter_nil hp
    rw [MonthPost.create, if_pos (by rw [hnil]; rfl)]
  · have hnil : (check now comment.group db).monthComments.filter
        (fun mc => mc.comment == comment.id) = [] := by
      rcases check_monthComments_cases now comment.group db with hcm | hcm
      · rw [hcm]; exact hc
      · rw [hcm]; exact filter_filter_nil hc
    rw [MonthComment.create, if_pos (by rw [hnil]; rfl)]

/-- Witness for C10: the sample post and comment are over 30 days old at
time 90000 yet their shadow rows are inserted into the concrete database. -/
theorem month_create_no_age_check_witness :
    (MonthPost.create 90000 postW dbB).monthPosts
      = (check 90000 postW.group dbB).monthPosts ++
        [{ created_time := postW.created_time, group := postW.group,
           post := postW.id }] ∧
    (MonthComment.create 90000 commentW dbB).monthComments
      = (check 90000 commentW.group dbB).monthComments ++
        [{ created_time := commentW.created_time, group := commentW.group,
           comment := commentW.id }] :=
  month_create_no_age_check 90000 postW commentW dbB (by decide) (by decide)

end Ward
